import Mathlib

/-!
Verification of the answer-grading logic and quiz session state machine of the
synapsy study-quiz application (source: src/components/QuizView.tsx, with the
superseded revision in src/unnamed/part_003).

Strings are modelled as lists of UTF-16 code units (`List Nat`), which is the
underlying representation of JavaScript strings; all inputs exercised by the
claims are ASCII.  JavaScript numbers holding health values are modelled as
rationals (`ℚ`); scores, indices and times are naturals.
-/

namespace Synapsy

/-- UTF-16 code units of a Lean string literal, used to write concrete
JavaScript strings in examples. -/
def strCodes (s : String) : List Nat := s.data.map Char.toNat

/-- ASCII lowercasing of one code unit, the fragment of JavaScript
toLowerCase relevant to A-Z. -/
def toLowerCode (c : Nat) : Nat := if 65 ≤ c ∧ c ≤ 90 then c + 32 else c

/-- JavaScript whitespace class: the code units matched by the regex class
backslash-s and trimmed by String.prototype.trim. -/
def isSpaceCode (c : Nat) : Bool :=
  c == 9 || c == 10 || c == 11 || c == 12 || c == 13 || c == 32 || c == 160 ||
  c == 5760 || (8192 ≤ c && c ≤ 8202) || c == 8232 || c == 8233 || c == 8239 ||
  c == 8287 || c == 12288 || c == 65279

/-- Word characters, the regex class backslash-w: A-Z a-z 0-9 underscore. -/
def isWordCode (c : Nat) : Bool :=
  (48 ≤ c && c ≤ 57) || (65 ≤ c && c ≤ 90) || (97 ≤ c && c ≤ 122) || c == 95

/-- The regex class [a-z0-9] of the list-marker regex in normalizeOptionText
(the input is already lowercased when it is applied). -/
def isMarkerCode (c : Nat) : Bool := (97 ≤ c && c ≤ 122) || (48 ≤ c && c ≤ 57)

/-- The separator class [.):-] of the list-marker regex: period, closing
parenthesis, colon, hyphen. -/
def isSepCode (c : Nat) : Bool := c == 46 || c == 41 || c == 58 || c == 45

/-- The trailing-punctuation class [.,;!] of normalizeOptionText. -/
def isTrailPunctCode (c : Nat) : Bool := c == 46 || c == 44 || c == 59 || c == 33

/-- JavaScript String.prototype.trim: drop leading and trailing whitespace. -/
def trimCodes (l : List Nat) : List Nat :=
  (l.dropWhile isSpaceCode).rdropWhile isSpaceCode

/-- The replace of the anchored regex [.,;!]+$ by the empty string in
normalizeOptionText: remove the maximal trailing run of . , ; ! . -/
def stripTrailingPunct (l : List Nat) : List Nat := l.rdropWhile isTrailPunctCode

/-- The replace of the anchored regex of a leading list marker
([a-z0-9]+ then one of . ) : - then at least one whitespace) by the empty
string in normalizeOptionText.  The alphanumeric run of any match is forced
to be the maximal leading run because the separator class is disjoint from
the run class, so the replacement is deterministic. -/
def stripListMarker (l : List Nat) : List Nat :=
  match l.dropWhile isMarkerCode with
  | [] => l
  | sep :: rest =>
    if !(l.takeWhile isMarkerCode).isEmpty && isSepCode sep &&
        !(rest.takeWhile isSpaceCode).isEmpty
    then rest.dropWhile isSpaceCode
    else l

/-- normalizeOptionText from src/components/QuizView.tsx lines 19-26:
falsy guard, lowercase, trim, strip trailing punctuation, strip a leading
list marker (only when the separator is followed by whitespace), trim. -/
def normalizeOptionText (text : Option (List Nat)) : List Nat :=
  if text.getD [] = [] then []
  else trimCodes (stripListMarker (stripTrailingPunct (trimCodes ((text.getD []).map toLowerCode))))

/-- b occurs as a contiguous leading block of a (helper for jsIncludes). -/
def leadsList : List Nat → List Nat → Bool
  | [], _ => true
  | _ :: _, [] => false
  | b :: bs, a :: as_ => b == a && leadsList bs as_

/-- JavaScript a.includes(b): b occurs contiguously inside a. -/
def jsIncludes : List Nat → List Nat → Bool
  | [], b => b.isEmpty
  | a :: as_, b => leadsList b (a :: as_) || jsIncludes as_ b

/-- isOptionMatch from src/components/QuizView.tsx lines 28-38: exact match
of the normalized strings, else containment in either direction when both
normalized strings are longer than 3 code units. -/
def isOptionMatch (opt1 opt2 : Option (List Nat)) : Bool :=
  if normalizeOptionText opt1 = normalizeOptionText opt2 then true
  else if 3 < (normalizeOptionText opt1).length ∧ 3 < (normalizeOptionText opt2).length then
    jsIncludes (normalizeOptionText opt1) (normalizeOptionText opt2) ||
    jsIncludes (normalizeOptionText opt2) (normalizeOptionText opt1)
  else false

/-- The normalize closure inside checkTextAnswer (QuizView.tsx lines 42-45):
lowercase, remove every character that is neither a word character nor
whitespace, trim. -/
def normalizeAnswerText (s : List Nat) : List Nat :=
  trimCodes ((s.map toLowerCode).filter (fun c => isWordCode c || isSpaceCode c))

/-- checkTextAnswer from src/components/QuizView.tsx lines 40-53: guard on a
missing or empty correct answer, normalize both strings, reject when either
normalization is empty, accept on equality or on containment (of the correct
text in the user text when the correct text is longer than 3, or the reverse).
There is no edit-distance step in this revision. -/
def checkTextAnswer (userAnswer : List Nat) (correctAnswer : Option (List Nat)) : Bool :=
  match correctAnswer with
  | none => false
  | some ca =>
    if ca = [] then false
    else if normalizeAnswerText userAnswer = [] ∨ normalizeAnswerText ca = [] then false
    else if normalizeAnswerText userAnswer = normalizeAnswerText ca then true
    else if 3 < (normalizeAnswerText ca).length ∧
        jsIncludes (normalizeAnswerText userAnswer) (normalizeAnswerText ca) = true then true
    else if 3 < (normalizeAnswerText userAnswer).length ∧
        jsIncludes (normalizeAnswerText ca) (normalizeAnswerText userAnswer) = true then true
    else false

/-- One row of the Levenshtein dynamic-programming table of checkShortAnswer
in src/unnamed/part_003 (lines 26-38): given the previous row starting at
column j-1 and the value just computed in this row, produce the rest of the
row.  pdiag is track[i-1][j-1], the head of prest is track[i-1][j]. -/
def levRowAux (ci : Nat) : List Nat → List Nat → Nat → List Nat
  | [], _, _ => []
  | _ :: _, [], _ => []
  | uj :: us, pdiag :: prest, left =>
    let indicator := if ci = uj then 0 else 1
    let v := min (left + 1) (min (prest.headD 0 + 1) (pdiag + indicator))
    v :: levRowAux ci us prest v

/-- Iterate the rows of the Levenshtein table over the characters of the
correct string, starting from row 0 = [0, 1, ..., length u]. -/
def levRows (u : List Nat) : List Nat → List Nat → Nat → List Nat
  | [], row, _ => row
  | ci :: cs, row, i => levRows u cs (i :: levRowAux ci u row i) (i + 1)

/-- The Levenshtein edit distance as computed by checkShortAnswer in
src/unnamed/part_003: the bottom-right entry of the dynamic-programming
table (rows indexed by the correct string c, columns by the user string u). -/
def levenshtein (c u : List Nat) : Nat :=
  (levRows u c (List.range (u.length + 1)) 1).getLastD 0

/-- The seven question types of types.ts (enum QuestionType). -/
inductive QuestionType where
  | MULTIPLE_CHOICE
  | TRUE_FALSE
  | SHORT_ANSWER
  | ORDERING
  | MATCHING
  | FILL_IN_THE_BLANK
  | FLASHCARD
deriving DecidableEq, Repr

/-- One left/right pair of a matching question (types.ts matchingPairs). -/
structure MatchingPair where
  left : List Nat
  right : List Nat
deriving DecidableEq, Repr

/-- QuizQuestion from types.ts.  correctAnswer is declared string in the
TypeScript interface but the grading code guards against it being undefined
(generated content may omit it), so it is modelled as an Option. -/
structure QuizQuestion where
  id : Nat
  type : QuestionType
  question : List Nat
  options : List (List Nat)
  correctAnswer : Option (List Nat)
  explanation : List Nat
  hint : List Nat
  simpleExplanation : List Nat
  orderingItems : Option (List (List Nat))
  matchingPairs : Option (List MatchingPair)
  searchQuery : Option (List Nat)
deriving DecidableEq, Repr

/-- QuizResult from types.ts. -/
structure QuizResult where
  score : Nat
  totalQuestions : Nat
  correctAnswers : Nat
  timeTaken : Nat
  xpEarned : Nat
deriving DecidableEq, Repr

/-- The assignment map of a matching question is a JavaScript object with
string keys; it is modelled as an association list whose keys are distinct.
Lookup of matches[k]. -/
def jsRecordGet (m : List MatchingPair) (k : List Nat) : Option (List Nat) :=
  (m.find? (fun p => p.left == k)).map MatchingPair.right

/-- The per-question working state of the quiz view that grading reads:
the selected option (null until a choice is tapped), the free-text buffer,
the current ordering sequence (item texts, ids are presentation-only) and
the matching assignment map. -/
structure WorkingState where
  selectedOption : Option (List Nat)
  textAnswer : List Nat
  orderingState : List (List Nat)
  matchesMap : List MatchingPair
deriving DecidableEq, Repr

/-- The grading dispatch of handleCheckAnswer, src/components/QuizView.tsx
lines 168-194, in source order: flashcard self-report first, then the
forced-timeout override, then text, ordering, matching, and the choice
fallback.  The ordering comparison in the source is equality of
JSON.stringify images, which on arrays of strings coincides with elementwise
list equality (and is false when orderingItems is undefined, since
JSON.stringify(undefined) is not a string). -/
def gradeAnswer (q : QuizQuestion) (w : WorkingState) (forcedByTimeout : Bool)
    (flashcardCorrect : Option Bool) : Bool :=
  if q.type = QuestionType.FLASHCARD then flashcardCorrect.getD false
  else if forcedByTimeout then false
  else if q.type = QuestionType.SHORT_ANSWER ∨ q.type = QuestionType.FILL_IN_THE_BLANK then
    checkTextAnswer w.textAnswer q.correctAnswer
  else if q.type = QuestionType.ORDERING then
    match q.orderingItems with
    | none => false
    | some items => w.orderingState == items
  else if q.type = QuestionType.MATCHING then
    match q.matchingPairs with
    | none => false
    | some pairs =>
      pairs.all (fun pair => jsRecordGet w.matchesMap pair.left == some pair.right) &&
      w.matchesMap.length == pairs.length
  else isOptionMatch (some (w.selectedOption.getD [])) q.correctAnswer

/-- The session state owned by the quiz view that submit and advance touch:
question index, score, the boss-battle health pair, and the per-question
verdict flags.  playerHealth is floored at 0 in the source
(Math.max(0, prev - 1)), which saturating Nat subtraction models exactly. -/
structure SessionState where
  currentIndex : Nat
  score : Nat
  bossHealth : ℚ
  playerHealth : Nat
  isAnswerRevealed : Bool
  isCurrentCorrect : Bool
deriving DecidableEq, Repr

/-- Initial session state: index 0, score 0, boss health 100, player lives 3. -/
def initialState : SessionState :=
  { currentIndex := 0, score := 0, bossHealth := 100, playerHealth := 3,
    isAnswerRevealed := false, isCurrentCorrect := false }

/-- The boss-health update on a correct answer, QuizView.tsx lines 202-207:
subtract 100 / totalQuestions and snap to exactly 0 when the result is
below 1 (the floating-point residue fix of the source). -/
def bossHit (prev : ℚ) (numQuestions : Nat) : ℚ :=
  let damagePerHit : ℚ := 100 / numQuestions
  let next := prev - damagePerHit
  if next < 1 then 0 else next

/-- The state effect of handleCheckAnswer (QuizView.tsx lines 168-231):
grade, then on success increment the score and in boss mode hit the boss;
on a non-timeout non-flashcard failure in boss mode decrement the player
lives (floored at 0); record the verdict and lock the question. -/
def submitStep (isBossMode : Bool) (numQuestions : Nat) (q : QuizQuestion)
    (w : WorkingState) (forcedByTimeout : Bool) (flashcardCorrect : Option Bool)
    (st : SessionState) : SessionState :=
  let correct := gradeAnswer q w forcedByTimeout flashcardCorrect
  let st1 :=
    if correct then
      let st2 := { st with score := st.score + 1 }
      if isBossMode then { st2 with bossHealth := bossHit st2.bossHealth numQuestions }
      else st2
    else if forcedByTimeout = false ∧ q.type ≠ QuestionType.FLASHCARD then
      if isBossMode then { st with playerHealth := st.playerHealth - 1 } else st
    else st
  { st1 with isCurrentCorrect := correct, isAnswerRevealed := true }

/-- The advance transition handleNext (QuizView.tsx lines 245-276): in boss
mode with no lives left, finish immediately with reduced XP (score times 5);
otherwise either move to the next question or finish, with an XP bonus of
100 when the boss is dead and a halving penalty when the boss survived.
Math.floor(xp times 0.5) equals xp / 2 in the integers because xp is even. -/
def handleNext (isBossMode : Bool) (numQuestions timeTaken : Nat) (st : SessionState) :
    SessionState ⊕ QuizResult :=
  if isBossMode ∧ st.playerHealth = 0 then
    Sum.inr { score := st.score, totalQuestions := numQuestions,
              correctAnswers := st.score, timeTaken := timeTaken,
              xpEarned := st.score * 5 }
  else if st.currentIndex < numQuestions - 1 then
    Sum.inl { st with currentIndex := st.currentIndex + 1,
                      isAnswerRevealed := false, isCurrentCorrect := false }
  else
    Sum.inr { score := st.score, totalQuestions := numQuestions,
              correctAnswers := st.score, timeTaken := timeTaken,
              xpEarned :=
                (if isBossMode ∧ st.bossHealth ≤ 0 then st.score * 10 + 100
                 else if isBossMode ∧ 0 < st.bossHealth then st.score * 10 / 2
                 else st.score * 10) }

/-- One submission: the working state at the moment of the check, whether the
check was forced by the countdown reaching zero, and for flashcards the
self-reported verdict. -/
structure SubmitInput where
  working : WorkingState
  forced : Bool
  flashcardCorrect : Option Bool
deriving DecidableEq, Repr

/-- Whether one submission is graded correct. -/
def gradedCorrect (qi : QuizQuestion × SubmitInput) : Bool :=
  gradeAnswer qi.1 qi.2.working qi.2.forced qi.2.flashcardCorrect

/-- Drive a session: submit each question with its input, then advance;
stop with the emitted result, also counting how many submissions were
consumed.  Returns none only when the input list is exhausted before the
session finishes. -/
def runSessionAux (bm : Bool) (n tt : Nat) :
    SessionState → List (QuizQuestion × SubmitInput) → Option (QuizResult × Nat)
  | _, [] => none
  | st, (q, inp) :: rest =>
    let st1 := submitStep bm n q inp.working inp.forced inp.flashcardCorrect st
    match handleNext bm n tt st1 with
    | Sum.inr res => some (res, 1)
    | Sum.inl st2 => (runSessionAux bm n tt st2 rest).map (fun pr => (pr.1, pr.2 + 1))

/-- A whole session from the initial state. -/
def runSession (bm : Bool) (questions : List QuizQuestion) (inputs : List SubmitInput)
    (tt : Nat) : Option (QuizResult × Nat) :=
  runSessionAux bm questions.length tt initialState (questions.zip inputs)

/-- Claim C2 (confirmed): choice-type grading matches exactly when the
normalized strings (lowercased, trimmed, trailing punctuation stripped, a
leading list marker stripped only when its separator is followed by
whitespace) are equal, or when both are longer than 3 code units and one
contains the other; isOptionMatch on the option A. Paris and the answer
Paris is true, and on 3.14 against itself is true because the decimal
point is not followed by a space and is therefore never stripped. -/
theorem isOptionMatch_characterization :
    (∀ opt1 opt2 : Option (List Nat),
      isOptionMatch opt1 opt2 = true ↔
        (normalizeOptionText opt1 = normalizeOptionText opt2 ∨
         (3 < (normalizeOptionText opt1).length ∧ 3 < (normalizeOptionText opt2).length ∧
          (jsIncludes (normalizeOptionText opt1) (normalizeOptionText opt2) = true ∨
           jsIncludes (normalizeOptionText opt2) (normalizeOptionText opt1) = true)))) ∧
    isOptionMatch (some (strCodes ("A. Paris"))) (some (strCodes ("Paris"))) = true ∧
    isOptionMatch (some (strCodes ("3.14"))) (some (strCodes ("3.14"))) = true ∧
    normalizeOptionText (some (strCodes ("3.14"))) = strCodes ("3.14") := by
  refine ⟨fun opt1 opt2 => ?_, by decide, by decide, by decide⟩
  unfold isOptionMatch
  split_ifs with h1 h2
  · simp [h1]
  · simp only [Bool.or_eq_true]
    tauto
  · push_neg at h2
    constructor
    · intro h
      simp at h
    · rintro (h | ⟨ha, hb, _⟩)
      · exact absurd h h1
      · exact absurd (h2 ha) (by omega)

/-- Claim C1 (counterexample): the claim predicts that with both normalized
texts non-empty, unequal and with neither containment rule applicable, the
verdict is correct precisely when the edit distance is within the tolerance;
at user text abcde against correct text abcdx all those conditions hold and
the distance 1 is within max(2, 0.3 x 5) = 2, yet checkTextAnswer rejects. -/
theorem checkTextAnswer_levenshtein_counterexample :
    normalizeAnswerText (strCodes ("abcde")) = strCodes ("abcde") ∧
    normalizeAnswerText (strCodes ("abcdx")) = strCodes ("abcdx") ∧
    strCodes ("abcde") ≠ strCodes ("abcdx") ∧
    ¬(3 < (strCodes ("abcdx")).length ∧
        jsIncludes (strCodes ("abcde")) (strCodes ("abcdx")) = true) ∧
    ¬(3 < (strCodes ("abcde")).length ∧
        jsIncludes (strCodes ("abcdx")) (strCodes ("abcde")) = true) ∧
    levenshtein (strCodes ("abcdx")) (strCodes ("abcde")) = 1 ∧
    ((levenshtein (strCodes ("abcdx")) (strCodes ("abcde")) : ℚ) ≤
      max 2 (3 / 10 * (max (strCodes ("abcde")).length (strCodes ("abcdx")).length : ℚ))) ∧
    checkTextAnswer (strCodes ("abcde")) (some (strCodes ("abcdx"))) = false := by
  refine ⟨by decide, by decide, by decide, by decide, by decide, by decide, ?_, by decide⟩
  have h1 : levenshtein (strCodes ("abcdx")) (strCodes ("abcde")) = 1 := by decide
  have h2 : (strCodes ("abcde")).length = 5 := by decide
  have h3 : (strCodes ("abcdx")).length = 5 := by decide
  rw [h1, h2, h3]
  norm_num

/-- Claim C1 (corrected): in the grader in use (checkTextAnswer in
src/components/QuizView.tsx), when the normalized user and correct texts are
both non-empty, not equal, and neither containment rule applies, the verdict
is incorrect: no edit-distance step is performed (the Levenshtein acceptance
with threshold max(2, 0.3 x maxlen) exists only in the superseded revision
src/unnamed/part_003).  The two quoted examples hold of the grader in use:
Pari against Paris is accepted (via containment) and xyz against Paris is
rejected. -/
theorem checkTextAnswer_no_distance_step :
    (∀ u ca : List Nat,
      normalizeAnswerText u ≠ [] →
      normalizeAnswerText ca ≠ [] →
      normalizeAnswerText u ≠ normalizeAnswerText ca →
      ¬(3 < (normalizeAnswerText ca).length ∧
          jsIncludes (normalizeAnswerText u) (normalizeAnswerText ca) = true) →
      ¬(3 < (normalizeAnswerText u).length ∧
          jsIncludes (normalizeAnswerText ca) (normalizeAnswerText u) = true) →
      checkTextAnswer u (some ca) = false) ∧
    checkTextAnswer (strCodes ("Pari")) (some (strCodes ("Paris"))) = true ∧
    checkTextAnswer (strCodes ("xyz")) (some (strCodes ("Paris"))) = false := by
  refine ⟨fun u ca h1 h2 h3 h4 h5 => ?_, by decide, by decide⟩
  have hca : ca ≠ [] := by
    intro h
    apply h2
    rw [h]
    rfl
  simp only [checkTextAnswer]
  rw [if_neg hca, if_neg (by tauto), if_neg h3, if_neg h4, if_neg h5]

/-- Witness for the universal part of the corrected C1 at the concrete
fall-through input abcde against abcdx. -/
theorem checkTextAnswer_no_distance_step_witness :
    checkTextAnswer (strCodes ("abcde")) (some (strCodes ("abcdx"))) = false :=
  checkTextAnswer_no_distance_step.1 (strCodes ("abcde")) (strCodes ("abcdx"))
    (by decide) (by decide) (by decide) (by decide) (by decide)

/-- An ordering question whose correctAnswer is missing; grading it uses
only orderingItems. -/
def orderingNoAnswerQ : QuizQuestion :=
  { id := 0, type := QuestionType.ORDERING, question := [],
    options := [], correctAnswer := none, explanation := [], hint := [],
    simpleExplanation := [],
    orderingItems := some [strCodes ("A"), strCodes ("B"), strCodes ("C")],
    matchingPairs := none, searchQuery := none }

/-- A working state holding the canonical order of orderingNoAnswerQ. -/
def orderedW : WorkingState :=
  { selectedOption := none, textAnswer := [],
    orderingState := [strCodes ("A"), strCodes ("B"), strCodes ("C")],
    matchesMap := [] }

/-- A working state holding a wrong order of orderingNoAnswerQ. -/
def misorderedW : WorkingState :=
  { selectedOption := none, textAnswer := [],
    orderingState := [strCodes ("B"), strCodes ("A"), strCodes ("C")],
    matchesMap := [] }

/-- Two canonical pairs for a sample matching question. -/
def matchingSamplePairs : List MatchingPair :=
  [{ left := strCodes ("H2O"), right := strCodes ("water") },
   { left := strCodes ("NaCl"), right := strCodes ("salt") }]

/-- A sample matching question. -/
def matchingSampleQ : QuizQuestion :=
  { id := 1, type := QuestionType.MATCHING, question := [],
    options := [], correctAnswer := none, explanation := [], hint := [],
    simpleExplanation := [], orderingItems := none,
    matchingPairs := some matchingSamplePairs, searchQuery := none }

/-- A complete correct assignment map for matchingSampleQ. -/
def matchingSampleW : WorkingState :=
  { selectedOption := none, textAnswer := [], orderingState := [],
    matchesMap :=
      [{ left := strCodes ("H2O"), right := strCodes ("water") },
       { left := strCodes ("NaCl"), right := strCodes ("salt") }] }

/-- Claim C3 (counterexample): an ordering question with correctAnswer
undefined grades correct when the working sequence matches orderingItems, so
a missing correctAnswer does not force an incorrect verdict for every type. -/
theorem missing_answer_counterexample :
    orderingNoAnswerQ.correctAnswer = none ∧
    gradeAnswer orderingNoAnswerQ orderedW false none = true := by
  constructor
  · rfl
  · decide

/-- normalizeOptionText of a missing or empty string is empty. -/
theorem normalizeOptionText_empty (ca : Option (List Nat))
    (hca : ca = none ∨ ca = some []) : normalizeOptionText ca = [] := by
  rcases hca with h | h <;> rw [h] <;> rfl

/-- isOptionMatch against a missing or empty correct answer fails whenever
the other side normalizes to something non-empty. -/
theorem isOptionMatch_missing_correct (o ca : Option (List Nat))
    (hca : ca = none ∨ ca = some []) (hn : normalizeOptionText o ≠ []) :
    isOptionMatch o ca = false := by
  have h2 : normalizeOptionText ca = [] := normalizeOptionText_empty ca hca
  unfold isOptionMatch
  rw [h2]
  rw [if_neg hn, if_neg (by simp)]

/-- Claim C3 (corrected): a submit on a question whose correctAnswer is
undefined or empty never throws (the grader is a total function) and yields
an incorrect verdict for the types whose grading consults correctAnswer:
always for short-answer and fill-in-blank, and for multiple-choice and
true/false whenever the selected option does not itself normalize to the
empty string.  Ordering, matching and flashcard grading ignore
correctAnswer entirely, so the original universal claim fails for them. -/
theorem gradeAnswer_missing_answer :
    ∀ (q : QuizQuestion) (w : WorkingState) (fc : Option Bool),
      (q.correctAnswer = none ∨ q.correctAnswer = some []) →
      ((q.type = QuestionType.SHORT_ANSWER ∨ q.type = QuestionType.FILL_IN_THE_BLANK) →
        gradeAnswer q w false fc = false) ∧
      ((q.type = QuestionType.MULTIPLE_CHOICE ∨ q.type = QuestionType.TRUE_FALSE) →
        normalizeOptionText (some (w.selectedOption.getD [])) ≠ [] →
        gradeAnswer q w false fc = false) ∧
      ((q.type = QuestionType.ORDERING ∨ q.type = QuestionType.MATCHING ∨
          q.type = QuestionType.FLASHCARD) →
        ∀ ca, gradeAnswer { q with correctAnswer := ca } w false fc =
          gradeAnswer q w false fc) := by
  intro q w fc hca
  refine ⟨?_, ?_, ?_⟩
  · rintro (ht | ht) <;>
      rcases hca with h | h <;>
      simp [gradeAnswer, ht, h, checkTextAnswer]
  · rintro (ht | ht) hn <;>
      simp [gradeAnswer, ht, isOptionMatch_missing_correct _ _ hca hn]
  · rintro (ht | ht | ht) ca <;> simp [gradeAnswer, ht]

/-- Witness for the corrected C3 at a concrete short-answer question with a
missing correct answer and at a concrete choice question with an empty one. -/
theorem gradeAnswer_missing_answer_witness :
    gradeAnswer { orderingNoAnswerQ with type := QuestionType.SHORT_ANSWER }
      orderedW false none = false :=
  ((gradeAnswer_missing_answer
      { orderingNoAnswerQ with type := QuestionType.SHORT_ANSWER }
      orderedW none (Or.inl rfl)).1 (Or.inl rfl))

/-- The verdict recorded by a submit is exactly the grading outcome. -/
theorem submitStep_isCurrentCorrect (bm : Bool) (n : Nat) (q : QuizQuestion)
    (w : WorkingState) (f : Bool) (fc : Option Bool) (st : SessionState) :
    (submitStep bm n q w f fc st).isCurrentCorrect = gradeAnswer q w f fc := by
  unfold submitStep
  split_ifs <;> rfl

/-- A submit increments the score exactly when the grading succeeds. -/
theorem submitStep_score (bm : Bool) (n : Nat) (q : QuizQuestion)
    (w : WorkingState) (f : Bool) (fc : Option Bool) (st : SessionState) :
    (submitStep bm n q w f fc st).score =
      st.score + (if gradeAnswer q w f fc = true then 1 else 0) := by
  unfold submitStep
  split_ifs <;> simp_all

/-- Claim C4 (confirmed): a matching submit is correct exactly when every
canonical pair has its left key assigned to precisely its right value and
the number of assignments equals the number of canonical pairs; the verdict
is unchanged under any replacement of the correctAnswer and options fields. -/
theorem matching_grading_characterization :
    ∀ (bm : Bool) (n : Nat) (q : QuizQuestion) (pairs : List MatchingPair)
      (w : WorkingState) (fc : Option Bool) (st : SessionState),
      q.type = QuestionType.MATCHING →
      q.matchingPairs = some pairs →
      (w.matchesMap.map MatchingPair.left).Nodup →
      (((submitStep bm n q w false fc st).isCurrentCorrect = true) ↔
        ((∀ p ∈ pairs, jsRecordGet w.matchesMap p.left = some p.right) ∧
         w.matchesMap.length = pairs.length)) ∧
      (∀ ca opts,
        gradeAnswer { q with correctAnswer := ca, options := opts } w false fc =
          gradeAnswer q w false fc) := by
  intro bm n q pairs w fc st ht hp _
  constructor
  · rw [submitStep_isCurrentCorrect]
    simp [gradeAnswer, ht, hp, List.all_eq_true]
  · intro ca opts
    simp [gradeAnswer, ht]

/-- Witness for C4: a two-pair matching question with a complete, correct
assignment map. -/
theorem matching_grading_characterization_witness :
    (((submitStep false 2 matchingSampleQ matchingSampleW false none initialState).isCurrentCorrect
        = true) ↔
      ((∀ p ∈ matchingSamplePairs,
          jsRecordGet matchingSampleW.matchesMap p.left = some p.right) ∧
       matchingSampleW.matchesMap.length = matchingSamplePairs.length)) ∧
    (∀ ca opts,
      gradeAnswer { matchingSampleQ with correctAnswer := ca, options := opts }
          matchingSampleW false none =
        gradeAnswer matchingSampleQ matchingSampleW false none) :=
  matching_grading_characterization false 2 matchingSampleQ matchingSamplePairs
    matchingSampleW none initialState rfl rfl (by decide)

/-- Claim C5 (confirmed): an ordering submit is correct exactly when the
working sequence of item texts equals the canonical orderingItems list
elementwise in order; every other permutation grades incorrect. -/
theorem ordering_grading_characterization :
    ∀ (bm : Bool) (n : Nat) (q : QuizQuestion) (items : List (List Nat))
      (w : WorkingState) (fc : Option Bool) (st : SessionState),
      q.type = QuestionType.ORDERING →
      q.orderingItems = some items →
      (((submitStep bm n q w false fc st).isCurrentCorrect = true) ↔
        w.orderingState = items) := by
  intro bm n q items w fc st ht hi
  rw [submitStep_isCurrentCorrect]
  simp [gradeAnswer, ht, hi]

/-- Witness for C5: the canonical sequence is accepted and a transposed
sequence is rejected. -/
theorem ordering_grading_characterization_witness :
    ((((submitStep false 3 orderingNoAnswerQ orderedW false none initialState).isCurrentCorrect
        = true) ↔
      orderedW.orderingState = [strCodes ("A"), strCodes ("B"), strCodes ("C")]) ∧
     (((submitStep false 3 orderingNoAnswerQ misorderedW false none initialState).isCurrentCorrect
        = true) ↔
      misorderedW.orderingState = [strCodes ("A"), strCodes ("B"), strCodes ("C")])) :=
  ⟨ordering_grading_characterization false 3 orderingNoAnswerQ _ orderedW none
      initialState rfl rfl,
   ordering_grading_characterization false 3 orderingNoAnswerQ _ misorderedW none
      initialState rfl rfl⟩

/-- Claim C6 (confirmed): a submit forced by the countdown on any
non-flashcard question is graded incorrect regardless of the working state
(the per-type comparison is bypassed: the forced branch precedes it), and
the score is unchanged. -/
theorem timeout_submit_incorrect :
    ∀ (bm : Bool) (n : Nat) (q : QuizQuestion) (w : WorkingState) (fc : Option Bool)
      (st : SessionState),
      q.type ≠ QuestionType.FLASHCARD →
      gradeAnswer q w true fc = false ∧
      (submitStep bm n q w true fc st).isCurrentCorrect = false ∧
      (submitStep bm n q w true fc st).score = st.score := by
  intro bm n q w fc st ht
  have hg : gradeAnswer q w true fc = false := by
    simp [gradeAnswer, ht]
  refine ⟨hg, ?_, ?_⟩
  · rw [submitStep_isCurrentCorrect, hg]
  · rw [submitStep_score, hg]
    simp

/-- Witness for C6: a timed-out ordering submit whose working state would
have been correct on a normal submit still grades incorrect. -/
theorem timeout_submit_incorrect_witness :
    (gradeAnswer orderingNoAnswerQ orderedW false none = true) ∧
    gradeAnswer orderingNoAnswerQ orderedW true none = false ∧
    (submitStep false 3 orderingNoAnswerQ orderedW true none initialState).isCurrentCorrect
      = false ∧
    (submitStep false 3 orderingNoAnswerQ orderedW true none initialState).score
      = initialState.score :=
  ⟨by decide,
   timeout_submit_incorrect false 3 orderingNoAnswerQ orderedW none initialState
     (by decide)⟩

/-- After k correct boss hits from full health, the health is either already
snapped to 0 or equals the exact remainder 100 - k * (100 / n). -/
theorem bossHit_iterate_cases (n : Nat) (hn : 1 ≤ n) (k : Nat) :
    (fun h => bossHit h n)^[k] (100 : ℚ) = 0 ∨
    (fun h => bossHit h n)^[k] (100 : ℚ) = 100 - k * (100 / n) := by
  have hpos : (0 : ℚ) < 100 / n := by
    apply div_pos (by norm_num)
    exact_mod_cast hn
  induction k with
  | zero => right; simp
  | succ k ih =>
    rw [Function.iterate_succ_apply']
    rcases ih with h | h
    · left
      rw [h]
      unfold bossHit
      rw [if_pos (by linarith)]
    · rw [h]
      unfold bossHit
      by_cases hlt : (100 : ℚ) - k * (100 / n) - 100 / n < 1
      · left
        rw [if_pos hlt]
      · right
        rw [if_neg hlt]
        push_cast
        ring

/-- Claim C7 (confirmed): in boss mode every correct submit applies the
bossHit update, which subtracts 100 / totalQuestions and snaps to exactly 0
below 1; iterating it n times from the initial health 100 (one hit per
question, all n answered correctly) lands on exactly 0, with no residue. -/
theorem boss_health_reaches_zero (n : Nat) (q : QuizQuestion) (w : WorkingState)
    (fc : Option Bool) (st : SessionState) (hn : 1 ≤ n)
    (hc : gradeAnswer q w false fc = true) :
    (submitStep true n q w false fc st).bossHealth = bossHit st.bossHealth n ∧
    (fun h => bossHit h n)^[n] (100 : ℚ) = 0 := by
  constructor
  · unfold submitStep
    rw [hc]
    rfl
  · rcases bossHit_iterate_cases n hn n with h | h
    · exact h
    · rw [h]
      have hne : (n : ℚ) ≠ 0 := by
        have : (0 : ℚ) < n := by exact_mod_cast hn
        linarith
      field_simp

/-- A sample multiple-choice question with correct answer Paris. -/
def parisQuestion (idx : Nat) : QuizQuestion :=
  { id := idx, type := QuestionType.MULTIPLE_CHOICE,
    question := strCodes ("Capital of France?"),
    options := [strCodes ("Paris"), strCodes ("London")],
    correctAnswer := some (strCodes ("Paris")),
    explanation := [], hint := [], simpleExplanation := [],
    orderingItems := none, matchingPairs := none, searchQuery := none }

/-- A submission selecting the given option on a choice question. -/
def pickOption (o : List Nat) : SubmitInput :=
  { working := { selectedOption := some o, textAnswer := [],
                 orderingState := [], matchesMap := [] },
    forced := false, flashcardCorrect := none }

/-- Witness for C7 at a five-question boss battle: the health update of a
correct submit is bossHit, and five hits from 100 land exactly on 0. -/
theorem boss_health_reaches_zero_witness :
    (submitStep true 5 (parisQuestion 1) (pickOption (strCodes ("Paris"))).working
        false none initialState).bossHealth = bossHit initialState.bossHealth 5 ∧
    (fun h => bossHit h 5)^[5] (100 : ℚ) = 0 :=
  boss_health_reaches_zero 5 (parisQuestion 1) (pickOption (strCodes ("Paris"))).working
    none initialState (by norm_num) (by decide)

/-- A sample flashcard question. -/
def flashcardQ : QuizQuestion :=
  { id := 7, type := QuestionType.FLASHCARD,
    question := strCodes ("front"), options := [],
    correctAnswer := some (strCodes ("back")),
    explanation := [], hint := [], simpleExplanation := [],
    orderingItems := none, matchingPairs := none, searchQuery := none }

/-- Claim C10 (confirmed): submitting a flashcard with the self-reported
failure (Review, flashcardCorrect = false) leaves the score, the player
life counter and the boss health unchanged in every mode, including boss
battles: the battle-mode life-loss penalty is guarded by the question not
being a flashcard. -/
theorem flashcard_review_frame :
    ∀ (bm : Bool) (n : Nat) (q : QuizQuestion) (w : WorkingState) (st : SessionState),
      q.type = QuestionType.FLASHCARD →
      (submitStep bm n q w false (some false) st).score = st.score ∧
      (submitStep bm n q w false (some false) st).playerHealth = st.playerHealth ∧
      (submitStep bm n q w false (some false) st).bossHealth = st.bossHealth ∧
      (submitStep bm n q w false (some false) st).isCurrentCorrect = false := by
  intro bm n q w st ht
  have hg : gradeAnswer q w false (some false) = false := by
    simp [gradeAnswer, ht]
  unfold submitStep
  rw [hg]
  simp [ht]

/-- Witness for C10 in boss mode with full health and lives. -/
theorem flashcard_review_frame_witness :
    (submitStep true 4 flashcardQ orderedW false (some false) initialState).score
        = initialState.score ∧
    (submitStep true 4 flashcardQ orderedW false (some false) initialState).playerHealth
        = initialState.playerHealth ∧
    (submitStep true 4 flashcardQ orderedW false (some false) initialState).bossHealth
        = initialState.bossHealth ∧
    (submitStep true 4 flashcardQ orderedW false (some false) initialState).isCurrentCorrect
        = false :=
  flashcard_review_frame true 4 flashcardQ orderedW initialState rfl

/-- Advancing without finishing does not change the score. -/
theorem handleNext_inl_score (bm : Bool) (n tt : Nat) (st st2 : SessionState)
    (h : handleNext bm n tt st = Sum.inl st2) : st2.score = st.score := by
  unfold handleNext at h
  split_ifs at h
  all_goals
    simp only [Sum.inl.injEq] at h
  subst h
  rfl

/-- Both finishing branches emit a result whose score and correctAnswers are
the session score and whose totalQuestions is the question count. -/
theorem handleNext_inr_fields (bm : Bool) (n tt : Nat) (st : SessionState)
    (res : QuizResult) (h : handleNext bm n tt st = Sum.inr res) :
    res.score = st.score ∧ res.correctAnswers = st.score ∧ res.totalQuestions = n := by
  unfold handleNext at h
  split_ifs at h
  all_goals
    simp only [Sum.inr.injEq] at h
  all_goals
    subst h
  all_goals
    exact ⟨rfl, rfl, rfl⟩

/-- Whenever the session driver emits a result after consuming k
submissions, the result carries the question count as totalQuestions, has
correctAnswers equal to score, and its score is the starting score plus the
number of consumed submissions that graded correct. -/
theorem runSessionAux_spec (bm : Bool) (n tt : Nat) :
    ∀ (l : List (QuizQuestion × SubmitInput)) (st : SessionState)
      (res : QuizResult) (k : Nat),
      runSessionAux bm n tt st l = some (res, k) →
      res.totalQuestions = n ∧ res.correctAnswers = res.score ∧
      res.score = st.score + (l.take k).countP gradedCorrect ∧ k ≤ l.length := by
  intro l
  induction l with
  | nil =>
    intro st res k h
    simp [runSessionAux] at h
  | cons hd rest ih =>
    obtain ⟨q, inp⟩ := hd
    intro st res k h
    simp only [runSessionAux] at h
    rcases hnx : handleNext bm n tt
        (submitStep bm n q inp.working inp.forced inp.flashcardCorrect st) with st2 | r
    · rw [hnx] at h
      simp only [Option.map_eq_some'] at h
      obtain ⟨⟨res', k'⟩, hrun, heq⟩ := h
      obtain ⟨heq1, heq2⟩ := Prod.mk.injEq .. ▸ heq
      obtain ⟨h1, h2, h3, h4⟩ := ih st2 res' k' hrun
      subst heq1
      have hsc2 : st2.score = st.score +
          (if gradeAnswer q inp.working inp.forced inp.flashcardCorrect = true
           then 1 else 0) := by
        rw [handleNext_inl_score bm n tt _ st2 hnx, submitStep_score]
      refine ⟨h1, h2, ?_, ?_⟩
      · rw [← heq2]
        rw [List.take_succ_cons, List.countP_cons]
        have hg : gradedCorrect (q, inp) =
            gradeAnswer q inp.working inp.forced inp.flashcardCorrect := rfl
        rw [h3, hsc2, hg]
        by_cases hb : gradeAnswer q inp.working inp.forced inp.flashcardCorrect = true
        · simp [hb]
          omega
        · simp [hb]
      · rw [← heq2]
        simp only [List.length_cons]
        omega
    · rw [hnx] at h
      simp only [Option.some.injEq, Prod.mk.injEq] at h
      obtain ⟨rfl, rfl⟩ := h
      obtain ⟨h1, h2, h3⟩ := handleNext_inr_fields bm n tt _ _ hnx
      rw [submitStep_score] at h1
      refine ⟨h3, by rw [h2, h1, submitStep_score], ?_, by simp⟩
      rw [h1, List.take_succ_cons, List.take_zero, List.countP_cons]
      have hg : gradedCorrect (q, inp) =
          gradeAnswer q inp.working inp.forced inp.flashcardCorrect := rfl
      rw [hg]
      by_cases hb : gradeAnswer q inp.working inp.forced inp.flashcardCorrect = true
      · simp [hb]
      · simp [hb]

/-- Claim C8 (confirmed): whenever a session completes, whether by advancing
past the last question or by advancing in boss mode with the life counter at
0, the emitted result has totalQuestions equal to the number of questions,
and its score and correctAnswers both equal the number of submits graded
correct during the session (the k consumed submissions). -/
theorem session_result_totals (bm : Bool) (questions : List QuizQuestion)
    (inputs : List SubmitInput) (tt : Nat) (res : QuizResult) (k : Nat)
    (h : runSession bm questions inputs tt = some (res, k)) :
    res.totalQuestions = questions.length ∧
    res.correctAnswers = res.score ∧
    res.score = ((questions.zip inputs).take k).countP gradedCorrect := by
  obtain ⟨h1, h2, h3, _⟩ :=
    runSessionAux_spec bm questions.length tt (questions.zip inputs) initialState res k h
  exact ⟨h1, h2, by simpa [initialState] using h3⟩

/-- Witness for C8: a five-question multiple-choice session with four
correct picks and one wrong pick finishes with correctAnswers 4, score 4
and totalQuestions 5. -/
theorem session_result_totals_witness :
    ({ score := 4, totalQuestions := 5, correctAnswers := 4, timeTaken := 60,
       xpEarned := 40 } : QuizResult).totalQuestions =
      ([parisQuestion 1, parisQuestion 2, parisQuestion 3, parisQuestion 4,
        parisQuestion 5] : List QuizQuestion).length ∧
    ({ score := 4, totalQuestions := 5, correctAnswers := 4, timeTaken := 60,
       xpEarned := 40 } : QuizResult).correctAnswers =
      ({ score := 4, totalQuestions := 5, correctAnswers := 4, timeTaken := 60,
         xpEarned := 40 } : QuizResult).score ∧
    ({ score := 4, totalQuestions := 5, correctAnswers := 4, timeTaken := 60,
       xpEarned := 40 } : QuizResult).score =
      ((([parisQuestion 1, parisQuestion 2, parisQuestion 3, parisQuestion 4,
          parisQuestion 5]).zip
          [pickOption (strCodes ("Paris")), pickOption (strCodes ("Paris")),
           pickOption (strCodes ("London")), pickOption (strCodes ("Paris")),
           pickOption (strCodes ("Paris"))]).take 5).countP gradedCorrect :=
  session_result_totals false
    [parisQuestion 1, parisQuestion 2, parisQuestion 3, parisQuestion 4, parisQuestion 5]
    [pickOption (strCodes ("Paris")), pickOption (strCodes ("Paris")),
     pickOption (strCodes ("London")), pickOption (strCodes ("Paris")),
     pickOption (strCodes ("Paris"))] 60
    { score := 4, totalQuestions := 5, correctAnswers := 4, timeTaken := 60,
      xpEarned := 40 } 5 (by decide)

/-- ASCII lowercasing is idempotent on code units. -/
theorem toLowerCode_idem (c : Nat) : toLowerCode (toLowerCode c) = toLowerCode c := by
  unfold toLowerCode
  split_ifs <;> omega

/-- Trimming produces a sublist. -/
theorem trimCodes_sublist (l : List Nat) : List.Sublist (trimCodes l) l := by
  unfold trimCodes
  have h1 := List.rdropWhile_prefix isSpaceCode (l.dropWhile isSpaceCode)
  have h2 := List.dropWhile_sublist (l := l) isSpaceCode
  exact h1.sublist.trans h2

/-- Stripping trailing punctuation produces a sublist. -/
theorem stripTrailingPunct_sublist (l : List Nat) : List.Sublist (stripTrailingPunct l) l := by
  have h1 := List.rdropWhile_prefix isTrailPunctCode l
  exact h1.sublist

/-- Stripping a leading list marker leaves a suffix of the input. -/
theorem stripListMarker_suffix (l : List Nat) : stripListMarker l <:+ l := by
  unfold stripListMarker
  split
  · exact List.suffix_rfl
  · next sep rest hd =>
    split_ifs with h
    · have h1 : rest.dropWhile isSpaceCode <:+ rest := List.dropWhile_suffix _
      have h2 : rest <:+ sep :: rest := List.suffix_cons sep rest
      have h3 : sep :: rest <:+ l := by
        rw [← hd]
        exact List.dropWhile_suffix _
      exact h1.trans (h2.trans h3)
    · exact List.suffix_rfl

/-- Unfolding of normalizeOptionText on a non-empty string. -/
theorem normalizeOptionText_some_ne (t : List Nat) (h : t ≠ []) :
    normalizeOptionText (some t) =
      trimCodes (stripListMarker (stripTrailingPunct (trimCodes (t.map toLowerCode)))) := by
  unfold normalizeOptionText
  simp only [Option.getD_some]
  rw [if_neg h]

/-- The normalized option text is a sublist of the lowercased input. -/
theorem normalizeOptionText_sublist (t : List Nat) :
    List.Sublist (normalizeOptionText (some t)) (t.map toLowerCode) := by
  by_cases h : t = []
  · subst h
    exact List.nil_sublist _
  · rw [normalizeOptionText_some_ne t h]
    refine (trimCodes_sublist _).trans ?_
    refine ((stripListMarker_suffix _).sublist).trans ?_
    refine (stripTrailingPunct_sublist _).trans ?_
    exact trimCodes_sublist _

/-- Every code unit of a normalized option text is fixed by lowercasing. -/
theorem normalizeOptionText_mem_lower (t : List Nat) :
    ∀ c ∈ normalizeOptionText (some t), toLowerCode c = c := by
  intro c hc
  have h1 : c ∈ t.map toLowerCode := (normalizeOptionText_sublist t).subset hc
  obtain ⟨c0, _, rfl⟩ := List.mem_map.1 h1
  exact toLowerCode_idem c0

/-- Lowercasing a normalized option text is the identity. -/
theorem normalizeOptionText_map_lower (t : List Nat) :
    (normalizeOptionText (some t)).map toLowerCode = normalizeOptionText (some t) := by
  have h : ∀ c ∈ normalizeOptionText (some t), toLowerCode c = id c :=
    normalizeOptionText_mem_lower t
  rw [List.map_congr_left h, List.map_id]

/-- Trimming is idempotent. -/
theorem trimCodes_idem (l : List Nat) : trimCodes (trimCodes l) = trimCodes l := by
  unfold trimCodes
  have hAfix : (l.dropWhile isSpaceCode).dropWhile isSpaceCode = l.dropWhile isSpaceCode :=
    List.dropWhile_idempotent _ _
  have hpre := List.rdropWhile_prefix isSpaceCode (l.dropWhile isSpaceCode)
  have hdw : ((l.dropWhile isSpaceCode).rdropWhile isSpaceCode).dropWhile isSpaceCode =
      (l.dropWhile isSpaceCode).rdropWhile isSpaceCode := by
    cases hc : (l.dropWhile isSpaceCode).rdropWhile isSpaceCode with
    | nil => rfl
    | cons a t =>
      obtain ⟨r, hr⟩ := hpre
      rw [hc] at hr
      by_cases hpa : isSpaceCode a
      · exfalso
        rw [← hr] at hAfix
        have h2 : List.dropWhile isSpaceCode ((a :: t) ++ r) =
            List.dropWhile isSpaceCode (t ++ r) := by
          simp [List.dropWhile_cons, hpa]
        rw [h2] at hAfix
        have h3 := (List.dropWhile_sublist (l := t ++ r) isSpaceCode).length_le
        rw [hAfix] at h3
        simp at h3
      · simp [List.dropWhile_cons, hpa]
  rw [hdw, List.rdropWhile_idempotent]

/-- Trimming a normalized option text is the identity. -/
theorem normalizeOptionText_trim (t : List Nat) :
    trimCodes (normalizeOptionText (some t)) = normalizeOptionText (some t) := by
  by_cases h : t = []
  · subst h
    rfl
  · rw [normalizeOptionText_some_ne t h]
    exact trimCodes_idem _

/-- Claim C9 (counterexample): normalizeOptionText is not idempotent; after
stripping the list marker of the string 1. 2. x a fresh marker 2. is
exposed, so a second normalization strips again. -/
theorem normalizeOptionText_not_idempotent :
    normalizeOptionText (some (normalizeOptionText (some (strCodes ("1. 2. x"))))) ≠
      normalizeOptionText (some (strCodes ("1. 2. x"))) := by decide

/-- Claim C9 (corrected): normalizeOptionText is idempotent on every string
whose normalized form is a fixpoint of the trailing-punctuation strip and of
the list-marker strip; the normalized form is always lowercase and trimmed,
so only those two strips can make a second normalization differ (as the
counterexample shows they can). -/
theorem normalizeOptionText_conditional_idempotent :
    ∀ t : List Nat,
      stripTrailingPunct (normalizeOptionText (some t)) = normalizeOptionText (some t) →
      stripListMarker (normalizeOptionText (some t)) = normalizeOptionText (some t) →
      normalizeOptionText (some (normalizeOptionText (some t))) =
        normalizeOptionText (some t) := by
  intro t h1 h2
  by_cases hr : normalizeOptionText (some t) = []
  · rw [hr]
    rfl
  · rw [normalizeOptionText_some_ne _ hr, normalizeOptionText_map_lower t,
      normalizeOptionText_trim t, h1, h2, normalizeOptionText_trim t]

/-- Witness for the corrected C9 at the concrete string A. Paris, whose
normalized form paris is a fixpoint of both strips. -/
theorem normalizeOptionText_conditional_idempotent_witness :
    normalizeOptionText (some (normalizeOptionText (some (strCodes ("A. Paris"))))) =
      normalizeOptionText (some (strCodes ("A. Paris"))) :=
  normalizeOptionText_conditional_idempotent (strCodes ("A. Paris"))
    (by decide) (by decide)

end Synapsy
